import Mathlib

/-!
Shallow embedding of `src/api_cmds.go` (package `src` of srclib): the
`src api describe` / `src api list` command core — build orchestration
(`ensureBuild`), source-unit lookup (`getSourceUnitsWithFile`), the
ref-scanning and def-resolution logic of `APIDescribeCmd.Execute`, and the
ref-collection logic of `APIListCmd.Execute`.

External collaborators (the build store's walk/open/decode, the graph
artifact decode, and the remote Sourcegraph client) are modelled as
explicit data: a `BuildStore` carries the walked paths and the decode
results of each stored artifact, and a `Client` carries the results of the
two remote calls. Go pointer mutation of decoded records is modelled by an
explicit post-state function on the decoded ref list.
-/

namespace Srclib

/-- Splits a character list on `/`, like Go `strings.Split(s, "/")`:
always returns at least one (possibly empty) component. -/
def splitSlash : List Char → List (List Char)
  | [] => [[]]
  | c :: rest =>
    match splitSlash rest with
    | [] => [[c]]
    | h :: t => if c = '/' then [] :: h :: t else (c :: h) :: t

/-- Joins components with `/` separators (inverse of `splitSlash` up to
normalization). -/
def joinSlash : List (List Char) → List Char
  | [] => []
  | [c] => c
  | c :: rest => c ++ '/' :: joinSlash rest

/-- Bool test that `a` is a suffix of `b` (Go `strings.HasSuffix`),
written over reversed lists so it evaluates by structural recursion. -/
def listHasSuffix (a b : List Char) : Bool :=
  go a.reverse b.reverse
where
  go : List Char → List Char → Bool
    | [], _ => true
    | _ :: _, [] => false
    | x :: xs, y :: ys => x == y && go xs ys

/-- Models Go `path/filepath.Clean` with `/` separators: lexical path
normalization. Split on `/`, drop empty and `.` components, resolve `..`
against a stack (dropping `..` at the root of a rooted path, keeping
leading `..` of a relative path), and rebuild; the empty relative result
is `.`. Implemented over the character list so it evaluates by kernel
reduction. -/
def clean (path : String) : String :=
  if path.data = [] then "."
  else
    let cs := path.data
    let rooted := cs.head? = some '/'
    let comps := (splitSlash cs).filter (fun c => c != [] && c != ['.'])
    let stk := comps.foldl (fun acc c =>
      if c = ['.', '.'] then
        match acc with
        | [] => if rooted then [] else [['.', '.']]
        | top :: rest => if top = ['.', '.'] then c :: acc else rest
      else c :: acc) []
    let out := stk.reverse
    if rooted then String.mk ('/' :: joinSlash out)
    else if out = [] then "." else String.mk (joinSlash out)

/-- Models Go `filepath.Join` of two elements: join the non-empty elements
with `/` and `Clean` the result; all-empty input yields the empty string. -/
def goJoin (a b : String) : String :=
  if a = "" then (if b = "" then "" else clean b)
  else if b = "" then clean a
  else clean (a ++ "/" ++ b)

/-- Models `unit.SourceUnit` (the fields `api_cmds.go` reads: `Name`,
`Type`, `Files`). `Type` is a Lean keyword, so the field is `Typ`. -/
structure SourceUnit where
  Name : String
  Typ : String
  Files : List String
deriving DecidableEq

/-- Models `graph.Ref` (the fields `api_cmds.go` reads or writes:
`DefRepo`, `DefUnitType`, `DefUnit`, `DefPath`, `File`, `Start`, `End`). -/
structure Ref where
  DefRepo : String
  DefUnitType : String
  DefUnit : String
  DefPath : String
  File : String
  Start : Int
  End : Int
deriving DecidableEq

/-- Models `graph.Def` (the fields read: `Path`, `File`). -/
structure Def where
  Path : String
  File : String
deriving DecidableEq

/-- Models `graph.Doc` (the fields read: `Path`, `Data`). -/
structure Doc where
  Path : String
  Data : String
deriving DecidableEq

/-- Models `grapher.Output`: the decoded graph artifact of one unit. -/
structure Output where
  Defs : List Def
  Refs : List Ref
  Docs : List Doc
deriving DecidableEq

/-- Models `sourcegraph.Def`: an embedded `graph.Def` plus `DocHTML`. -/
structure SgDef where
  defRec : Def
  DocHTML : String
deriving DecidableEq

/-- Models `sourcegraph.DefSpec`: the four-part target locator. -/
structure DefSpec where
  Repo : String
  UnitType : String
  Unit : String
  Path : String
deriving DecidableEq

/-- Models `sourcegraph.Example` (opaque payload for this core). -/
structure Example where
  payload : String
deriving DecidableEq

/-- Models the build store as seen by `api_cmds.go`: the commit-scoped walk
(`fs.WalkFS` order, externally determined), the source-unit manifest
suffix (`buildstore.DataTypeSuffix(unit.SourceUnit{})`), the combined
open+JSON-decode of a unit manifest at a walked path, and the combined
open+JSON-decode of the graph artifact keyed by unit name and type (the
path `plan.SourceUnitDataFilename("graph", u)` depends only on those).
An `Except.error` models either an `Open` failure or a decode failure,
carrying the error string the Go code would return. -/
structure BuildStore where
  walkPaths : List String
  unitSuffix : String
  decodeUnit : String → Except String SourceUnit
  loadGraph : String → String → Except String Output

/-- The unit-manifest paths collected by the walk loop of
`getSourceUnitsWithFile` (lines 112–120): walked paths ending in the
source-unit suffix, in walk order. -/
def unitFilesOf (bs : BuildStore) : List String :=
  bs.walkPaths.filter (fun p => listHasSuffix bs.unitSuffix.data p.data)

/-- The inner membership scan of `getSourceUnitsWithFile` (lines 134–139):
the unit is appended iff some member file, after `filepath.Clean`, equals
the (already cleaned) query file; the Go loop breaks at the first match. -/
def unitHasFile (filename : String) (u : SourceUnit) : Bool :=
  u.Files.any (fun f2 => clean f2 == filename)

/-- The decode-and-collect loop of `getSourceUnitsWithFile` (lines
122–140): decode each manifest in order; a decode failure returns the
wrapped error immediately (aborting the whole lookup); a decoded unit is
kept iff it contains the query file. -/
def collectUnits (bs : BuildStore) (filename : String) :
    List String → Except String (List SourceUnit)
  | [] => Except.ok []
  | uf :: rest =>
    match bs.decodeUnit uf with
    | Except.error e => Except.error (uf ++ ": " ++ e)
    | Except.ok u =>
      (collectUnits bs filename rest).map
        (fun us => if unitHasFile filename u then u :: us else us)

/-- Models `getSourceUnitsWithFile` (lines 106–143): clean the query file,
walk for unit manifests, decode each, and collect every unit containing
the file. -/
def getSourceUnitsWithFile (bs : BuildStore) (filename : String) :
    Except String (List SourceUnit) :=
  collectUnits bs (clean filename) (unitFilesOf bs)

/-- The ref-match predicate of `APIDescribeCmd.Execute` (line 272):
`c.File == ref2.File && c.StartByte >= ref2.Start && c.StartByte <= ref2.End`
— file equality and inclusive coverage at both span ends. -/
def refCovers (file : String) (p : Int) (r : Ref) : Bool :=
  file == r.File && decide (r.Start ≤ p) && decide (p ≤ r.End)

/-- The defaulting of lines 274–279: an empty `DefUnit`/`DefUnitType` of
the matched ref is overwritten with the scanned unit's `Name`/`Type`. -/
def defaultUnitFields (u : SourceUnit) (r : Ref) : Ref :=
  let r1 := if r.DefUnit = "" then { r with DefUnit := u.Name } else r
  if r1.DefUnitType = "" then { r1 with DefUnitType := u.Typ } else r1

/-- The defaulting of lines 293–295: an empty `DefRepo` of the matched ref
is overwritten with the current repository's URI. -/
def defaultRepoField (repoURI : String) (r : Ref) : Ref :=
  if r.DefRepo = "" then { r with DefRepo := repoURI } else r

/-- The nested `OuterLoop` scan of lines 257–283: iterate the candidate
units in order; load each unit's graph (an `Open` or decode failure aborts
with that error); within a graph iterate the refs in artifact order and
stop at the first ref covering the position (`break OuterLoop`), returning
the scanned unit together with the matched ref as decoded. -/
def scanUnits (bs : BuildStore) (file : String) (p : Int) :
    List SourceUnit → Except String (Option (SourceUnit × Ref))
  | [] => Except.ok none
  | u :: rest =>
    match bs.loadGraph u.Name u.Typ with
    | Except.error e => Except.error e
    | Except.ok g =>
      match g.Refs.find? (refCovers file p) with
      | some r => Except.ok (some (u, r))
      | none => scanUnits bs file p rest

/-- The flattened (unit, ref) traversal order of the `OuterLoop` scan:
for each candidate unit in order, its decoded refs in artifact order
(units whose graph fails to load contribute nothing; `scanUnits` aborts
there anyway). -/
def candidateRefs (bs : BuildStore) (units : List SourceUnit) :
    List (SourceUnit × Ref) :=
  units.flatMap (fun u =>
    match bs.loadGraph u.Name u.Typ with
    | Except.ok g => g.Refs.map (fun r => (u, r))
    | Except.error _ => [])

/-- The doc-attachment loop of lines 323–327: no `break`, so the `Data`
of the last doc whose `Path` matches wins; `none` when no doc matches
(Go leaves `DocHTML` at its zero value `""`). -/
def findDoc (docs : List Doc) (path : String) : Option String :=
  docs.foldl (fun acc doc => if doc.Path == path then some doc.Data else acc) none

/-- The local Def lookup of lines 316–331 given a successfully loaded
target graph: the first Def whose `Path` equals the ref's `DefPath` (the
loop breaks on first match), wrapped as a `sourcegraph.Def` with matching
doc data attached and its `File` rewritten to the root-joined path. -/
def localDef (rootDir : String) (g : Output) (r : Ref) : Option SgDef :=
  (g.Defs.find? (fun d => d.Path == r.DefPath)).map (fun d =>
    { defRec := { d with File := goJoin rootDir d.File },
      DocHTML := (findDoc g.Docs r.DefPath).getD "" })

/-- The locator built at lines 337–342 from the (defaulted) matched ref. -/
def specOf (r : Ref) : DefSpec :=
  { Repo := r.DefRepo, UnitType := r.DefUnitType, Unit := r.DefUnit,
    Path := r.DefPath }

/-- Models the remote Sourcegraph client (`apiclient.Defs`): the result of
`Get` and of `ListExamples` for a given locator. `none` models a call that
returned an error — the Go code logs and drops the error, leaving the
response field at its zero value. -/
structure Client where
  getDef : DefSpec → Option SgDef
  listExamples : DefSpec → Option (List Example)

/-- The observable outcome of a successful `APIDescribeCmd.Execute` run
past the ref scan: either the literal empty object printed at line 289
when no ref matched, or the encoded response together with the locator it
was keyed by and which remote calls were issued. -/
structure DescribeResp where
  spec : DefSpec
  defResolved : Option SgDef
  examples : Option (List Example)
  remoteDefIssued : Bool
  examplesIssued : Bool
deriving DecidableEq

/-- Output of `describe`: the empty-object short-circuit or a response. -/
inductive DescribeOut where
  | empty : DescribeOut
  | resp : DescribeResp → DescribeOut
deriving DecidableEq

/-- The local-resolution step of lines 302–335: when the (defaulted) ref's
`DefRepo` equals the current repo URI, load the target unit's graph — an
`Open` or decode failure is returned as an error (lines 308–315) — and
look the Def up; otherwise (foreign repo) no local Def is resolved. -/
def localResolve (bs : BuildStore) (repoURI rootDir : String) (r : Ref) :
    Except String (Option SgDef) :=
  if r.DefRepo = repoURI then
    match bs.loadGraph r.DefUnit r.DefUnitType with
    | Except.error e => Except.error e
    | Except.ok g => Except.ok (localDef rootDir g r)
  else Except.ok none

/-- The response assembly of lines 337–377: build the locator from the
defaulted ref; issue the remote `Defs.Get` only when no local Def was
resolved; issue `ListExamples` unless suppressed; remote failures are
dropped (field left empty). -/
def respond (client : Client) (noExamples : Bool) (r : Ref)
    (d? : Option SgDef) : DescribeResp :=
  { spec := specOf r
    defResolved := match d? with
      | some d => some d
      | none => client.getDef (specOf r)
    examples := if noExamples then none else client.listExamples (specOf r)
    remoteDefIssued := d?.isNone
    examplesIssued := !noExamples }

/-- Models `APIDescribeCmd.Execute` (lines 214–381) from the point where
the query file is in repo-relative cleaned form and the build succeeded:
find candidate units, scan for the first covering ref, default its
`DefUnit`/`DefUnitType` (lines 274–279) and `DefRepo` (lines 293–295); if
no ref matched print `{}` (line 289); otherwise resolve locally and fall
through to the remote `Defs.Get` when no local Def was resolved; fetch
examples unless suppressed. -/
def describeCore (bs : BuildStore) (repoURI rootDir : String)
    (client : Client) (noExamples : Bool) (file : String) (startByte : Int) :
    Except String DescribeOut :=
  match getSourceUnitsWithFile bs file with
  | Except.error e => Except.error e
  | Except.ok units =>
    match scanUnits bs file startByte units with
    | Except.error e => Except.error e
    | Except.ok none => Except.ok DescribeOut.empty
    | Except.ok (some (u, r0)) =>
      let r := defaultRepoField repoURI (defaultUnitFields u r0)
      match localResolve bs repoURI rootDir r with
      | Except.error e => Except.error e
      | Except.ok d? =>
        Except.ok (DescribeOut.resp (respond client noExamples r d?))

/-- The graph-scanning loop of `APIListCmd.Execute` (lines 188–206): for
each candidate unit in order load its graph — an `Open` or decode failure
aborts with that error — and keep every ref whose `File` equals the query
file, in artifact order. -/
def collectRefs (bs : BuildStore) (file : String) :
    List SourceUnit → Except String (List Ref)
  | [] => Except.ok []
  | u :: rest =>
    match bs.loadGraph u.Name u.Typ with
    | Except.error e => Except.error e
    | Except.ok g =>
      (collectRefs bs file rest).map
        (fun rs => g.Refs.filter (fun r => file == r.File) ++ rs)

/-- Models `APIListCmd.Execute` (lines 145–212) from the point where the
query file is in repo-relative cleaned form and the build succeeded. -/
def listRefsCore (bs : BuildStore) (file : String) :
    Except String (List Ref) :=
  match getSourceUnitsWithFile bs file with
  | Except.error e => Except.error e
  | Except.ok units => collectRefs bs file units

/-- Result of `buildStore.Stat(buildStore.CommitPath(repo.CommitID))` at
line 80, as discriminated by the Go code: `err == nil` (the commit path
exists), `os.IsNotExist(err)` (it does not), or some other error. -/
inductive StatResult where
  | statExists : StatResult
  | statNotExist : StatResult
  | statOtherErr : StatResult
deriving DecidableEq

/-- Models the environment of one `ensureBuild` call: the store's answer
for the commit path and the outcomes of the external `ConfigCmd.Execute`
and `MakeCmd.Execute` collaborators. -/
structure BuildEnv where
  stat : StatResult
  configResult : Except String Unit
  makeResult : Except String Unit

/-- Which external steps an `ensureBuild` call ran. -/
structure BuildTrace where
  configRan : Bool
  makeRan : Bool
deriving DecidableEq

/-- Models `ensureBuild` (lines 72–103): run configure only when `Stat`
reports the commit path does not exist (`os.IsNotExist`), propagating a
configure failure immediately without running make; then always run make
and propagate its result. -/
def ensureBuild (env : BuildEnv) : BuildTrace × Except String Unit :=
  if env.stat = StatResult.statNotExist then
    match env.configResult with
    | Except.error e => ({ configRan := true, makeRan := false }, Except.error e)
    | Except.ok _ =>
      match env.makeResult with
      | Except.error e => ({ configRan := true, makeRan := true }, Except.error e)
      | Except.ok _ => ({ configRan := true, makeRan := true }, Except.ok ())
  else
    match env.makeResult with
    | Except.error e => ({ configRan := false, makeRan := true }, Except.error e)
    | Except.ok _ => ({ configRan := false, makeRan := true }, Except.ok ())

/-- Combined in-place defaulting applied through the matched ref pointer:
lines 274–279 write `DefUnit`/`DefUnitType` and lines 293–295 write
`DefRepo` into the decoded record itself (`ref` aliases the element of
`g.Refs`). -/
def applyDefaults (u : SourceUnit) (repoURI : String) (r : Ref) : Ref :=
  defaultRepoField repoURI (defaultUnitFields u r)

/-- Post-state of the decoded `g.Refs` list of the unit in which `describe`
found its match: the refs are `*graph.Ref` pointers, so the writes of
lines 274–279 and 293–295 land in the decoded record of the first ref
covering the position; all other decoded records are untouched. -/
def refsAfterDescribe (u : SourceUnit) (repoURI : String) (file : String)
    (p : Int) : List Ref → List Ref
  | [] => []
  | r :: rest =>
    if refCovers file p r then applyDefaults u repoURI r :: rest
    else r :: refsAfterDescribe u repoURI file p rest

/-! Concrete instances used to instantiate the theorems below. -/

/-- A remote client whose two calls both fail (errors are dropped by the
Go code, modelled as `none`). -/
def clientNone : Client :=
  { getDef := fun _ => none, listExamples := fun _ => none }

/-- Unit `A` containing `a.py`. -/
def uA1 : SourceUnit := { Name := "A", Typ := "t", Files := ["a.py"] }

/-- A wide ref covering bytes 0–10 of `a.py`. -/
def rWide : Ref :=
  { DefRepo := "", DefUnitType := "", DefUnit := "", DefPath := "pw",
    File := "a.py", Start := 0, End := 10 }

/-- A narrower ref covering bytes 4–6 of `a.py`, emitted after `rWide`. -/
def rNarrow : Ref :=
  { DefRepo := "", DefUnitType := "", DefUnit := "", DefPath := "pn",
    File := "a.py", Start := 4, End := 6 }

/-- Graph artifact with the two overlapping refs. -/
def g1 : Output := { Defs := [], Refs := [rWide, rNarrow], Docs := [] }

/-- Store with one unit manifest for `uA1` whose graph is `g1`. -/
def cbs1 : BuildStore :=
  { walkPaths := ["A.unit"], unitSuffix := ".unit",
    decodeUnit := fun p => if p = "A.unit" then Except.ok uA1 else Except.error "nf",
    loadGraph := fun n t =>
      if n = "A" ∧ t = "t" then Except.ok g1 else Except.error "nf" }

/-- Unit `D` containing `d.py`. -/
def uD2 : SourceUnit := { Name := "D", Typ := "t", Files := ["d.py"] }

/-- Ref in `d.py` whose definition lives in unit `E` of the same repo
(`DefRepo` empty defaults to the current repo). -/
def rD2 : Ref :=
  { DefRepo := "", DefUnitType := "t", DefUnit := "E", DefPath := "p",
    File := "d.py", Start := 0, End := 10 }

/-- Graph artifact of unit `D`. -/
def gD2 : Output := { Defs := [], Refs := [rD2], Docs := [] }

/-- Store in which the matched ref's target unit `E` exists in no decodable
graph artifact: loading the target graph fails with `boom`. -/
def cbs2 : BuildStore :=
  { walkPaths := ["D.unit"], unitSuffix := ".unit",
    decodeUnit := fun p => if p = "D.unit" then Except.ok uD2 else Except.error "nf",
    loadGraph := fun n t =>
      if n = "D" ∧ t = "t" then Except.ok gD2 else Except.error "boom" }

/-- Ref in `d.py` with all three locator fields empty (same-unit
shorthand). -/
def rD2w : Ref :=
  { DefRepo := "", DefUnitType := "", DefUnit := "", DefPath := "p",
    File := "d.py", Start := 0, End := 10 }

/-- The Def the ref `rD2w` points at, with a repo-relative file. -/
def dD2 : Def := { Path := "p", File := "x/d.go" }

/-- Doc record for `dD2`. -/
def docD2 : Doc := { Path := "p", Data := "<b>doc</b>" }

/-- Graph artifact of unit `D` holding the ref, its Def, and its Doc. -/
def gD2w : Output := { Defs := [dD2], Refs := [rD2w], Docs := [docD2] }

/-- Store in which local resolution of the matched ref succeeds. -/
def cbs2w : BuildStore :=
  { walkPaths := ["D.unit"], unitSuffix := ".unit",
    decodeUnit := fun p => if p = "D.unit" then Except.ok uD2 else Except.error "nf",
    loadGraph := fun n t =>
      if n = "D" ∧ t = "t" then Except.ok gD2w else Except.error "nf" }

/-- Unit `C` containing `c.py`. -/
def uC5 : SourceUnit := { Name := "C", Typ := "t", Files := ["c.py"] }

/-- A ref covering bytes 10–20 of `c.py` (away from the query offset). -/
def rC5 : Ref :=
  { DefRepo := "", DefUnitType := "", DefUnit := "", DefPath := "pc",
    File := "c.py", Start := 10, End := 20 }

/-- Graph artifact of unit `C`. -/
def gC5 : Output := { Defs := [], Refs := [rC5], Docs := [] }

/-- Store whose only ref does not cover offset 5. -/
def cbs5 : BuildStore :=
  { walkPaths := ["C.unit"], unitSuffix := ".unit",
    decodeUnit := fun p => if p = "C.unit" then Except.ok uC5 else Except.error "nf",
    loadGraph := fun n t =>
      if n = "C" ∧ t = "t" then Except.ok gC5 else Except.error "nf" }

/-- Unit `B` listing `b.py` then `a.py` (the spec's scenario). -/
def uB6 : SourceUnit := { Name := "B", Typ := "t", Files := ["b.py", "a.py"] }

/-- Store with manifests for units `A` and `B` (both containing `a.py`)
plus a non-manifest walk entry; both graphs decode. -/
def cbs6 : BuildStore :=
  { walkPaths := ["A.unit", "notes.txt", "B.unit"], unitSuffix := ".unit",
    decodeUnit := fun p =>
      if p = "A.unit" then Except.ok uA1
      else if p = "B.unit" then Except.ok uB6
      else Except.error "nf",
    loadGraph := fun n t =>
      if (n = "A" ∨ n = "B") ∧ t = "t" then
        Except.ok { Defs := [], Refs := [], Docs := [] }
      else Except.error "nf" }

/-- Store whose first unit manifest is malformed while the second decodes
to `uB6`, which contains the query file `a.py`. -/
def cbs4 : BuildStore :=
  { walkPaths := ["u1.unit", "u2.unit"], unitSuffix := ".unit",
    decodeUnit := fun p =>
      if p = "u2.unit" then Except.ok uB6 else Except.error "bad",
    loadGraph := fun _ _ => Except.error "nf" }

/-- Unit `T` whose member list contains the query file twice after
normalization (`a.py` and `./a.py`). -/
def uT10 : SourceUnit := { Name := "T", Typ := "t", Files := ["a.py", "./a.py"] }

/-- Store with the single manifest of `uT10`. -/
def cbs10 : BuildStore :=
  { walkPaths := ["T.unit"], unitSuffix := ".unit",
    decodeUnit := fun p => if p = "T.unit" then Except.ok uT10 else Except.error "nf",
    loadGraph := fun _ _ => Except.error "nf" }

/-- A ref in `a.py` covering bytes 20–30 (away from offset 5). -/
def rFar : Ref :=
  { DefRepo := "", DefUnitType := "", DefUnit := "", DefPath := "pf",
    File := "a.py", Start := 20, End := 30 }

/-- The record `rWide` becomes once the in-place defaulting writes of
`describe` have landed in it (unit `A`, repo `example.com/r`). -/
def rWided : Ref :=
  { DefRepo := "example.com/r", DefUnitType := "t", DefUnit := "A",
    DefPath := "pw", File := "a.py", Start := 0, End := 10 }

/-- The matched ref `rD2w` after defaulting against unit `D` and repo
`example.com/r`. -/
def rD2wd : Ref :=
  { DefRepo := "example.com/r", DefUnitType := "t", DefUnit := "D",
    DefPath := "p", File := "d.py", Start := 0, End := 10 }

/-- Build environment whose store lacks the commit path and whose
configure step fails. -/
def cenv7 : BuildEnv :=
  { stat := StatResult.statNotExist,
    configResult := Except.error "cfgboom", makeResult := Except.ok () }

/-- Build environment whose commit path exists and whose steps succeed. -/
def cenv7b : BuildEnv :=
  { stat := StatResult.statExists,
    configResult := Except.ok (), makeResult := Except.ok () }

/-- Decidable equality for `Except` results, used to evaluate theorems on
concrete stores. -/
instance {ε α : Type} [DecidableEq ε] [DecidableEq α] :
    DecidableEq (Except ε α) := fun a b =>
  match a, b with
  | Except.error e, Except.error f => decidable_of_iff (e = f) (by simp)
  | Except.ok x, Except.ok y => decidable_of_iff (x = y) (by simp)
  | Except.error _, Except.ok _ => isFalse (fun h => Except.noConfusion h)
  | Except.ok _, Except.error _ => isFalse (fun h => Except.noConfusion h)

/-! Helper lemmas. -/

/-- Inversion for `Except.map` landing in `ok`. -/
theorem except_map_ok {ε α β : Type} {e : Except ε α} {f : α → β} {b : β} :
    e.map f = Except.ok b ↔ ∃ a, e = Except.ok a ∧ f a = b := by
  cases e <;> simp [Except.map]

/-- The `OuterLoop` scan equals the first match of the flattened
(unit, ref) traversal when every candidate graph loads. -/
theorem scanUnits_eq_find (bs : BuildStore) (file : String) (p : Int) :
    ∀ units : List SourceUnit,
      (∀ u ∈ units, (bs.loadGraph u.Name u.Typ).isOk = true) →
      scanUnits bs file p units =
        Except.ok ((candidateRefs bs units).find?
          (fun ur => refCovers file p ur.2))
  | [], _ => rfl
  | u :: rest, h => by
    have hu := h u (List.mem_cons_self u rest)
    have ih := scanUnits_eq_find bs file p rest
      (fun v hv => h v (List.mem_cons_of_mem u hv))
    cases hg : bs.loadGraph u.Name u.Typ with
    | error e => rw [hg] at hu; simp [Except.isOk, Except.toBool] at hu
    | ok g =>
      simp only [scanUnits, candidateRefs, List.flatMap_cons, hg]
      rw [List.find?_append, List.find?_map]
      have hcomp : ((fun ur : SourceUnit × Ref => refCovers file p ur.2) ∘
          (fun r => (u, r))) = refCovers file p := rfl
      rw [hcomp]
      cases hf : g.Refs.find? (refCovers file p) with
      | some r => simp
      | none => simpa [candidateRefs] using ih

/-- When every manifest decodes, the collect loop returns exactly the
decoded units containing the query file, in walk order. -/
theorem collectUnits_eq_of_ok (bs : BuildStore) (fn : String) :
    ∀ l : List String,
      (∀ uf ∈ l, (bs.decodeUnit uf).isOk = true) →
      collectUnits bs fn l =
        Except.ok ((l.filterMap
          (fun uf => (bs.decodeUnit uf).toOption)).filter (unitHasFile fn))
  | [], _ => rfl
  | uf :: rest, h => by
    have hu := h uf (List.mem_cons_self uf rest)
    have ih := collectUnits_eq_of_ok bs fn rest
      (fun v hv => h v (List.mem_cons_of_mem uf hv))
    cases hd : bs.decodeUnit uf with
    | error e => rw [hd] at hu; simp [Except.isOk, Except.toBool] at hu
    | ok u =>
      simp [collectUnits, hd, ih, Except.map, Except.toOption, List.filter_cons]

/-- A successful collect loop implies every manifest in it decoded. -/
theorem collectUnits_ok_decode (bs : BuildStore) (fn : String) :
    ∀ l us, collectUnits bs fn l = Except.ok us →
      ∀ uf ∈ l, (bs.decodeUnit uf).isOk = true := by
  intro l
  induction l with
  | nil => intro us _ uf hm; cases hm
  | cons a rest ih =>
    intro us hok uf hm
    cases hd : bs.decodeUnit a with
    | error e =>
      simp only [collectUnits, hd] at hok
      exact Except.noConfusion hok
    | ok u =>
      simp only [collectUnits, hd] at hok
      rcases except_map_ok.mp hok with ⟨us', hus', _⟩
      rcases List.mem_cons.mp hm with rfl | hm'
      · rw [hd]; rfl
      · exact ih us' hus' uf hm'

/-- Each manifest contributes at most one copy of a unit to the collect
loop's result, however many of its member files match. -/
theorem collectUnits_ok_count (bs : BuildStore) (fn : String)
    (u : SourceUnit) :
    ∀ l us, collectUnits bs fn l = Except.ok us →
      us.countP (fun v => decide (v = u)) ≤
        (l.filter (fun uf => decide (bs.decodeUnit uf = Except.ok u))).length := by
  intro l
  induction l with
  | nil =>
    intro us hok
    cases hok; simp
  | cons a rest ih =>
    intro us hok
    cases hd : bs.decodeUnit a with
    | error e =>
      simp only [collectUnits, hd] at hok
      exact Except.noConfusion hok
    | ok v =>
      simp only [collectUnits, hd] at hok
      rcases except_map_ok.mp hok with ⟨us', hus', hrest⟩
      have hcount := ih us' hus'
      rw [List.filter_cons]
      by_cases hv : v = u
      · rw [if_pos (by simp [hd, hv]), List.length_cons]
        have hcnt : us.countP (fun w => decide (w = u)) ≤
            us'.countP (fun w => decide (w = u)) + 1 := by
          rw [← hrest]
          by_cases hm : unitHasFile fn v = true
          · rw [if_pos hm, List.countP_cons]; simp [hv]
          · rw [if_neg hm]; omega
        omega
      · rw [if_neg (by simp [hd, hv])]
        have hcnt : us.countP (fun w => decide (w = u)) ≤
            us'.countP (fun w => decide (w = u)) := by
          rw [← hrest]
          by_cases hm : unitHasFile fn v = true
          · rw [if_pos hm, List.countP_cons]; simp [hv]
          · rw [if_neg hm]
        omega

/-- A successful ref-collect loop implies every candidate graph loaded. -/
theorem collectRefs_ok_load (bs : BuildStore) (file : String) :
    ∀ units rs, collectRefs bs file units = Except.ok rs →
      ∀ u ∈ units, (bs.loadGraph u.Name u.Typ).isOk = true := by
  intro units
  induction units with
  | nil => intro rs _ u hm; cases hm
  | cons a rest ih =>
    intro rs hok u hm
    cases hg : bs.loadGraph a.Name a.Typ with
    | error e =>
      simp only [collectRefs, hg] at hok
      exact Except.noConfusion hok
    | ok g =>
      simp only [collectRefs, hg] at hok
      rcases except_map_ok.mp hok with ⟨rs', hrs', _⟩
      rcases List.mem_cons.mp hm with rfl | hm'
      · rw [hg]; rfl
      · exact ih rs' hrs' u hm'

/-- Field-level description of the in-place defaulting: the locator built
from the defaulted ref. -/
theorem specOf_applyDefaults (u : SourceUnit) (repoURI : String) (r0 : Ref) :
    specOf (applyDefaults u repoURI r0) =
      { Repo := if r0.DefRepo = "" then repoURI else r0.DefRepo,
        UnitType := if r0.DefUnitType = "" then u.Typ else r0.DefUnitType,
        Unit := if r0.DefUnit = "" then u.Name else r0.DefUnit,
        Path := r0.DefPath } := by
  simp only [applyDefaults, defaultUnitFields, defaultRepoField, specOf]
  by_cases h1 : r0.DefUnit = "" <;> by_cases h2 : r0.DefUnitType = "" <;>
    by_cases h3 : r0.DefRepo = "" <;> simp [h1, h2, h3]

/-- The defaulted ref keeps `DefRepo`, `DefUnit`, `DefUnitType` as
prescribed and all other fields verbatim. -/
theorem applyDefaults_fields (u : SourceUnit) (repoURI : String) (r0 : Ref) :
    applyDefaults u repoURI r0 =
      { DefRepo := if r0.DefRepo = "" then repoURI else r0.DefRepo,
        DefUnitType := if r0.DefUnitType = "" then u.Typ else r0.DefUnitType,
        DefUnit := if r0.DefUnit = "" then u.Name else r0.DefUnit,
        DefPath := r0.DefPath, File := r0.File,
        Start := r0.Start, End := r0.End } := by
  simp only [applyDefaults, defaultUnitFields, defaultRepoField]
  by_cases h1 : r0.DefUnit = "" <;> by_cases h2 : r0.DefUnitType = "" <;>
    by_cases h3 : r0.DefRepo = "" <;> simp [h1, h2, h3]

/-- Reduction of `describeCore` once the scan has found a match. -/
theorem describeCore_found (bs : BuildStore) (repoURI rootDir : String)
    (client : Client) (noExamples : Bool) (file : String) (p : Int)
    (units : List SourceUnit) (u : SourceUnit) (r0 : Ref)
    (h1 : getSourceUnitsWithFile bs file = Except.ok units)
    (h2 : scanUnits bs file p units = Except.ok (some (u, r0))) :
    describeCore bs repoURI rootDir client noExamples file p =
      match localResolve bs repoURI rootDir
          (defaultRepoField repoURI (defaultUnitFields u r0)) with
      | Except.error e => Except.error e
      | Except.ok d? =>
        Except.ok (DescribeOut.resp (respond client noExamples
          (defaultRepoField repoURI (defaultUnitFields u r0)) d?)) := by
  simp only [describeCore, h1, h2]

/-! Claim theorems. -/

/-- C1: the `describe` scan matches a ref `r` iff `r.File` equals the
(repo-relative, cleaned) query file and `r.Start ≤ offset ≤ r.End`,
inclusive at both bounds; among all candidates it returns the first such
ref in unit-enumeration order and ref artifact order — `find?` over the
flattened (unit, ref) traversal — so iteration stops at the first match
with no narrowest-span tie-break. -/
theorem describe_matches_first_covering_ref (bs : BuildStore)
    (file : String) (p : Int) (units : List SourceUnit)
    (hload : ∀ u ∈ units, (bs.loadGraph u.Name u.Typ).isOk = true) :
    scanUnits bs file p units =
      Except.ok ((candidateRefs bs units).find?
        (fun ur => refCovers file p ur.2)) ∧
    ∀ r : Ref, refCovers file p r = true ↔
      (r.File = file ∧ r.Start ≤ p ∧ p ≤ r.End) := by
  refine ⟨scanUnits_eq_find bs file p units hload, fun r => ?_⟩
  simp only [refCovers, Bool.and_eq_true, decide_eq_true_eq, beq_iff_eq]
  constructor
  · rintro ⟨⟨hf, hs⟩, he⟩
    exact ⟨hf.symm, hs, he⟩
  · rintro ⟨hf, hs, he⟩
    exact ⟨⟨hf.symm, hs⟩, he⟩

/-- Witness for C1 on a concrete store: both refs of `g1` cover offset 5
and the wider first-emitted one wins. -/
theorem describe_matches_first_covering_ref_witness :
    (∀ u ∈ [uA1], (cbs1.loadGraph u.Name u.Typ).isOk = true) ∧
    scanUnits cbs1 "a.py" 5 [uA1] =
      Except.ok ((candidateRefs cbs1 [uA1]).find?
        (fun ur => refCovers "a.py" 5 ur.2)) ∧
    (candidateRefs cbs1 [uA1]).find? (fun ur => refCovers "a.py" 5 ur.2) =
      some (uA1, rWide) ∧
    refCovers "a.py" 5 rNarrow = true :=
  ⟨by decide,
   (describe_matches_first_covering_ref cbs1 "a.py" 5 [uA1] (by decide)).1,
   by decide, by decide⟩

/-- C5: `describe` on a file/offset with no covering ref (with all
candidate manifests and graphs decodable) returns the explicit empty
object and succeeds. -/
theorem describe_no_covering_ref_empty (bs : BuildStore)
    (repoURI rootDir : String) (client : Client) (noExamples : Bool)
    (file : String) (p : Int) (units : List SourceUnit)
    (h1 : getSourceUnitsWithFile bs file = Except.ok units)
    (hload : ∀ u ∈ units, (bs.loadGraph u.Name u.Typ).isOk = true)
    (hnone : ∀ ur ∈ candidateRefs bs units, refCovers file p ur.2 = false) :
    describeCore bs repoURI rootDir client noExamples file p =
      Except.ok DescribeOut.empty := by
  have hscan := scanUnits_eq_find bs file p units hload
  have hfind : (candidateRefs bs units).find?
      (fun ur => refCovers file p ur.2) = none := by
    rw [List.find?_eq_none]
    intro ur hur
    simp [hnone ur hur]
  rw [hfind] at hscan
  simp only [describeCore, h1, hscan]

/-- Witness for C5: the only ref spans bytes 10–20, the query offset is 5. -/
theorem describe_no_covering_ref_empty_witness :
    describeCore cbs5 "example.com/r" "/root" clientNone false "c.py" 5 =
      Except.ok DescribeOut.empty :=
  describe_no_covering_ref_empty cbs5 "example.com/r" "/root" clientNone
    false "c.py" 5 [uC5] (by decide) (by decide) (by decide)

/-- C6: when every unit manifest decodes, `getSourceUnitsWithFile`
returns exactly the decoded units whose member file list, after
normalization of each member and of the query file, contains an exact
match — all of them, in walk order — and the empty list (successfully,
not an error) when no unit matches. -/
theorem units_containing_file (bs : BuildStore) (filename : String)
    (hdec : ∀ uf ∈ unitFilesOf bs, (bs.decodeUnit uf).isOk = true) :
    getSourceUnitsWithFile bs filename =
      Except.ok (((unitFilesOf bs).filterMap
        (fun uf => (bs.decodeUnit uf).toOption)).filter
          (unitHasFile (clean filename))) ∧
    (∀ u : SourceUnit, unitHasFile (clean filename) u = true ↔
      ∃ f2 ∈ u.Files, clean f2 = clean filename) ∧
    ((∀ u ∈ (unitFilesOf bs).filterMap
        (fun uf => (bs.decodeUnit uf).toOption),
        unitHasFile (clean filename) u = false) →
      getSourceUnitsWithFile bs filename = Except.ok []) := by
  have hmain := collectUnits_eq_of_ok bs (clean filename) (unitFilesOf bs) hdec
  refine ⟨hmain, fun u => ?_, fun hno => ?_⟩
  · simp [unitHasFile, List.any_eq_true]
  · show collectUnits bs (clean filename) (unitFilesOf bs) = Except.ok []
    rw [hmain]
    congr 1
    rw [List.filter_eq_nil_iff]
    intro u hu
    simp [hno u hu]

/-- Witness for C6: the spec's scenario — units `A` (`a.py`) and `B`
(`b.py`, `a.py`) both contain `a.py`; both are returned, in walk order. -/
theorem units_containing_file_witness :
    getSourceUnitsWithFile cbs6 "a.py" =
      Except.ok (((unitFilesOf cbs6).filterMap
        (fun uf => (cbs6.decodeUnit uf).toOption)).filter
          (unitHasFile (clean "a.py"))) ∧
    ((unitFilesOf cbs6).filterMap
        (fun uf => (cbs6.decodeUnit uf).toOption)).filter
          (unitHasFile (clean "a.py")) = [uA1, uB6] :=
  ⟨(units_containing_file cbs6 "a.py" (by decide)).1, by decide⟩

/-- C7: `ensureBuild` runs configure iff the store reports the commit
path missing (`os.IsNotExist`); a configure failure aborts before make
and propagates; otherwise make always runs and its result is
propagated. -/
theorem ensureBuild_orchestration (env : BuildEnv) :
    ((ensureBuild env).1.configRan = true ↔
      env.stat = StatResult.statNotExist) ∧
    (∀ e, env.stat = StatResult.statNotExist →
      env.configResult = Except.error e →
      ensureBuild env =
        ({ configRan := true, makeRan := false }, Except.error e)) ∧
    ((env.stat ≠ StatResult.statNotExist ∨ env.configResult = Except.ok ()) →
      (ensureBuild env).1.makeRan = true ∧
      (ensureBuild env).2 = env.makeResult) := by
  refine ⟨?_, ?_, ?_⟩
  · by_cases hs : env.stat = StatResult.statNotExist
    · simp only [ensureBuild, if_pos hs]
      cases env.configResult <;> cases env.makeResult <;> simp [hs]
    · simp only [ensureBuild, if_neg hs]
      cases env.makeResult <;> simp [hs]
  · intro e hs hc
    simp only [ensureBuild, if_pos hs, hc]
  · intro h
    rcases h with hs | hc
    · simp only [ensureBuild, if_neg hs]
      cases hm : env.makeResult <;> simp
    · by_cases hs : env.stat = StatResult.statNotExist
      · simp only [ensureBuild, if_pos hs, hc]
        cases hm : env.makeResult <;> simp
      · simp only [ensureBuild, if_neg hs]
        cases hm : env.makeResult <;> simp

/-- Witness for C7: with the commit path missing and a failing configure
step, `ensureBuild` runs configure, skips make, and propagates the
configure error; with the commit path present, configure is skipped and
make's result is returned. -/
theorem ensureBuild_orchestration_witness :
    ensureBuild cenv7 =
      ({ configRan := true, makeRan := false }, Except.error "cfgboom") ∧
    (ensureBuild cenv7b).1.configRan = false ∧
    (ensureBuild cenv7b).1.makeRan = true ∧
    (ensureBuild cenv7b).2 = cenv7b.makeResult :=
  ⟨(ensureBuild_orchestration cenv7).2.1 "cfgboom" rfl rfl,
   by decide, ((ensureBuild_orchestration cenv7b).2.2 (Or.inl (by decide))).1,
   ((ensureBuild_orchestration cenv7b).2.2 (Or.inl (by decide))).2⟩

/-- C10: each manifest contributes at most one copy of its unit to the
`getSourceUnitsWithFile` result, however many of the unit's member files
normalize to the query file: a unit's multiplicity in the result is
bounded by the number of manifests decoding to it. -/
theorem units_containing_file_once_per_manifest (bs : BuildStore)
    (filename : String) (u : SourceUnit) (us : List SourceUnit)
    (h : getSourceUnitsWithFile bs filename = Except.ok us) :
    us.countP (fun v => decide (v = u)) ≤
      ((unitFilesOf bs).filter
        (fun uf => decide (bs.decodeUnit uf = Except.ok u))).length :=
  collectUnits_ok_count bs (clean filename) u (unitFilesOf bs) us h

/-- Witness for C10: unit `T` lists the query file twice (`a.py` and
`./a.py`) in its single manifest, yet occurs exactly once in the result,
matching the bound of one manifest. -/
theorem units_containing_file_once_per_manifest_witness :
    getSourceUnitsWithFile cbs10 "a.py" = Except.ok [uT10] ∧
    [uT10].countP (fun v => decide (v = uT10)) = 1 ∧
    [uT10].countP (fun v => decide (v = uT10)) ≤
      ((unitFilesOf cbs10).filter
        (fun uf => decide (cbs10.decodeUnit uf = Except.ok uT10))).length :=
  ⟨by decide, by decide,
   units_containing_file_once_per_manifest cbs10 "a.py" uT10 [uT10] (by decide)⟩

/-- C2 (counterexample): with the matched ref's target unit graph failing
to load, `describe` fails with that error instead of falling through to
remote resolution. -/
theorem describe_local_load_failure_fatal :
    describeCore cbs2 "example.com/r" "/root" clientNone false "d.py" 5 =
      Except.error "boom" ∧
    ∀ o, describeCore cbs2 "example.com/r" "/root" clientNone false "d.py" 5 ≠
      Except.ok o := by
  have base : describeCore cbs2 "example.com/r" "/root" clientNone false
      "d.py" 5 = Except.error "boom" := rfl
  exact ⟨base, fun o h => Except.noConfusion (base.symm.trans h)⟩

/-- C2 (amended): for a matched ref resolved to the current repository —
if the target unit's graph fails to load, describe aborts with that
error; if it loads and no Def matches the path, describe succeeds and
falls through to the remote client; if a Def matches, it is returned with
its file attribute rewritten to the root-joined path and no remote Def
fetch is issued. -/
theorem describe_local_resolution (bs : BuildStore)
    (repoURI rootDir : String) (client : Client) (noExamples : Bool)
    (file : String) (p : Int) (units : List SourceUnit)
    (u : SourceUnit) (r0 r : Ref)
    (h1 : getSourceUnitsWithFile bs file = Except.ok units)
    (h2 : scanUnits bs file p units = Except.ok (some (u, r0)))
    (hr : r = defaultRepoField repoURI (defaultUnitFields u r0))
    (hcur : r.DefRepo = repoURI) :
    (∀ e, bs.loadGraph r.DefUnit r.DefUnitType = Except.error e →
      describeCore bs repoURI rootDir client noExamples file p =
        Except.error e) ∧
    (∀ g, bs.loadGraph r.DefUnit r.DefUnitType = Except.ok g →
      g.Defs.find? (fun d => d.Path == r.DefPath) = none →
      describeCore bs repoURI rootDir client noExamples file p =
        Except.ok (DescribeOut.resp (respond client noExamples r none)) ∧
      (respond client noExamples r none).defResolved =
        client.getDef (specOf r) ∧
      (respond client noExamples r none).remoteDefIssued = true) ∧
    (∀ g d0, bs.loadGraph r.DefUnit r.DefUnitType = Except.ok g →
      g.Defs.find? (fun d => d.Path == r.DefPath) = some d0 →
      describeCore bs repoURI rootDir client noExamples file p =
        Except.ok (DescribeOut.resp (respond client noExamples r
          (some { defRec := { d0 with File := goJoin rootDir d0.File },
                  DocHTML := (findDoc g.Docs r.DefPath).getD "" }))) ∧
      (respond client noExamples r
          (some { defRec := { d0 with File := goJoin rootDir d0.File },
                  DocHTML := (findDoc g.Docs r.DefPath).getD "" })).defResolved =
        some { defRec := { d0 with File := goJoin rootDir d0.File },
               DocHTML := (findDoc g.Docs r.DefPath).getD "" } ∧
      (respond client noExamples r
          (some { defRec := { d0 with File := goJoin rootDir d0.File },
                  DocHTML := (findDoc g.Docs r.DefPath).getD "" })).remoteDefIssued =
        false) := by
  subst hr
  have hred := describeCore_found bs repoURI rootDir client noExamples
    file p units u r0 h1 h2
  refine ⟨?_, ?_, ?_⟩
  · intro e he
    rw [hred]
    simp only [localResolve, if_pos hcur, he]
  · intro g hg hfind
    refine ⟨?_, rfl, rfl⟩
    rw [hred]
    simp only [localResolve, if_pos hcur, hg, localDef, hfind]
    rfl
  · intro g d0 hg hfind
    refine ⟨?_, rfl, rfl⟩
    rw [hred]
    simp only [localResolve, if_pos hcur, hg, localDef, hfind]
    rfl

/-- Witness for C2 (amended) on a concrete store: the target graph loads,
the Def at path `p` is found, returned with the root-joined absolute file
`/root/x/d.go`, and no remote Def fetch is issued. -/
theorem describe_local_resolution_witness :
    describeCore cbs2w "example.com/r" "/root" clientNone false "d.py" 5 =
      Except.ok (DescribeOut.resp (respond clientNone false rD2wd
        (some { defRec := { dD2 with File := goJoin "/root" dD2.File },
                DocHTML := (findDoc gD2w.Docs rD2wd.DefPath).getD "" }))) ∧
    (respond clientNone false rD2wd
        (some { defRec := { dD2 with File := goJoin "/root" dD2.File },
                DocHTML := (findDoc gD2w.Docs rD2wd.DefPath).getD "" })).defResolved =
      some { defRec := { dD2 with File := goJoin "/root" dD2.File },
             DocHTML := (findDoc gD2w.Docs rD2wd.DefPath).getD "" } ∧
    (respond clientNone false rD2wd
        (some { defRec := { dD2 with File := goJoin "/root" dD2.File },
                DocHTML := (findDoc gD2w.Docs rD2wd.DefPath).getD "" })).remoteDefIssued =
      false :=
  (describe_local_resolution cbs2w "example.com/r" "/root" clientNone false
    "d.py" 5 [uD2] uD2 rD2w rD2wd rfl rfl (by decide) rfl).2.2 gD2w dD2 rfl rfl

/-- C3: the resolution locator of a successful `describe` response is
built from the matched ref's locator fields with empty defining-unit and
defining-unit-type defaulted to the scanned (referencing) unit's name and
type, and empty defining-repo defaulted to the current repository URI. -/
theorem describe_locator_defaulted (bs : BuildStore)
    (repoURI rootDir : String) (client : Client) (noExamples : Bool)
    (file : String) (p : Int) (units : List SourceUnit)
    (u : SourceUnit) (r0 : Ref) (resp : DescribeResp)
    (h1 : getSourceUnitsWithFile bs file = Except.ok units)
    (h2 : scanUnits bs file p units = Except.ok (some (u, r0)))
    (h3 : describeCore bs repoURI rootDir client noExamples file p =
      Except.ok (DescribeOut.resp resp)) :
    resp.spec =
      { Repo := if r0.DefRepo = "" then repoURI else r0.DefRepo,
        UnitType := if r0.DefUnitType = "" then u.Typ else r0.DefUnitType,
        Unit := if r0.DefUnit = "" then u.Name else r0.DefUnit,
        Path := r0.DefPath } := by
  rw [describeCore_found bs repoURI rootDir client noExamples file p units
    u r0 h1 h2] at h3
  cases hl : localResolve bs repoURI rootDir
      (defaultRepoField repoURI (defaultUnitFields u r0)) with
  | error e =>
    rw [hl] at h3
    exact Except.noConfusion h3
  | ok d? =>
    rw [hl] at h3
    have hresp := DescribeOut.resp.inj (Except.ok.inj h3)
    rw [← hresp]
    show specOf (defaultRepoField repoURI (defaultUnitFields u r0)) = _
    exact specOf_applyDefaults u repoURI r0

/-- Witness for C3: the matched ref `rD2w` has all three locator fields
empty; the response's locator carries the scanned unit's name/type and
the current repo URI. -/
theorem describe_locator_defaulted_witness :
    describeCore cbs2w "example.com/r" "/root" clientNone false "d.py" 5 =
      Except.ok (DescribeOut.resp (respond clientNone false rD2wd
        (some { defRec := { dD2 with File := goJoin "/root" dD2.File },
                DocHTML := (findDoc gD2w.Docs rD2wd.DefPath).getD "" }))) ∧
    (respond clientNone false rD2wd
        (some { defRec := { dD2 with File := goJoin "/root" dD2.File },
                DocHTML := (findDoc gD2w.Docs rD2wd.DefPath).getD "" })).spec =
      { Repo := if rD2w.DefRepo = "" then "example.com/r" else rD2w.DefRepo,
        UnitType := if rD2w.DefUnitType = "" then uD2.Typ else rD2w.DefUnitType,
        Unit := if rD2w.DefUnit = "" then uD2.Name else rD2w.DefUnit,
        Path := rD2w.DefPath } :=
  ⟨rfl,
   describe_locator_defaulted cbs2w "example.com/r" "/root" clientNone false
     "d.py" 5 [uD2] uD2 rD2w
     (respond clientNone false rD2wd
       (some { defRec := { dD2 with File := goJoin "/root" dD2.File },
               DocHTML := (findDoc gD2w.Docs rD2wd.DefPath).getD "" }))
     rfl rfl rfl⟩

/-- C4 (counterexample): with the first manifest malformed and the second
decodable (and containing the query file), the lookup aborts with the
wrapped decode error — the malformed unit is not skipped. -/
theorem decode_failure_not_skipped :
    getSourceUnitsWithFile cbs4 "a.py" = Except.error "u1.unit: bad" ∧
    ∀ us, getSourceUnitsWithFile cbs4 "a.py" ≠ Except.ok us := by
  have base : getSourceUnitsWithFile cbs4 "a.py" =
      Except.error "u1.unit: bad" := rfl
  exact ⟨base, fun us h => Except.noConfusion (base.symm.trans h)⟩

/-- C4 (amended): a malformed stored artifact aborts the whole listing
query — a successful result implies every candidate manifest decoded and
(for the ref listing) every candidate unit's graph loaded. -/
theorem decode_failure_aborts_listing (bs : BuildStore) (filename : String) :
    (∀ us, getSourceUnitsWithFile bs filename = Except.ok us →
      ∀ uf ∈ unitFilesOf bs, (bs.decodeUnit uf).isOk = true) ∧
    (∀ us rs, getSourceUnitsWithFile bs filename = Except.ok us →
      listRefsCore bs filename = Except.ok rs →
      ∀ u ∈ us, (bs.loadGraph u.Name u.Typ).isOk = true) := by
  refine ⟨fun us h =>
    collectUnits_ok_decode bs (clean filename) (unitFilesOf bs) us h,
    fun us rs h1 h2 => ?_⟩
  have hc : collectRefs bs filename us = Except.ok rs := by
    simpa [listRefsCore, h1] using h2
  exact collectRefs_ok_load bs filename us rs hc

/-- Witness for C4 (amended): on the all-decodable store `cbs6` the
successful lookup and listing certify every manifest and graph decoded. -/
theorem decode_failure_aborts_listing_witness :
    (∀ uf ∈ unitFilesOf cbs6, (cbs6.decodeUnit uf).isOk = true) ∧
    (∀ u ∈ [uA1, uB6], (cbs6.loadGraph u.Name u.Typ).isOk = true) :=
  ⟨(decode_failure_aborts_listing cbs6 "a.py").1 [uA1, uB6] rfl,
   (decode_failure_aborts_listing cbs6 "a.py").2 [uA1, uB6] [] rfl rfl⟩

/-- C8 (counterexample): the decoded ref record is mutated by `describe`:
with `rWide`'s locator fields empty, the post-state of the decoded refs
list differs from the decoded state — the matched record now carries the
defaulted locator. -/
theorem refs_mutated_counterexample :
    refsAfterDescribe uA1 "example.com/r" "a.py" 5 [rWide, rNarrow] ≠
      [rWide, rNarrow] ∧
    refsAfterDescribe uA1 "example.com/r" "a.py" 5 [rWide, rNarrow] =
      [rWided, rNarrow] := by
  constructor
  · decide
  · decide

/-- C8 (amended): `describe` leaves every decoded ref unchanged except
the first covering one, and changes that one only in its `DefRepo`,
`DefUnit`, `DefUnitType` fields, each only when empty (overwritten with
the current repo URI and the scanned unit's name/type). -/
theorem describe_mutates_only_matched_ref (u : SourceUnit)
    (repoURI file : String) (p : Int) :
    (∀ refs : List Ref, (∀ r ∈ refs, refCovers file p r = false) →
      refsAfterDescribe u repoURI file p refs = refs) ∧
    (∀ (l1 l2 : List Ref) (r : Ref),
      (∀ x ∈ l1, refCovers file p x = false) →
      refCovers file p r = true →
      refsAfterDescribe u repoURI file p (l1 ++ r :: l2) =
        l1 ++ applyDefaults u repoURI r :: l2) ∧
    (∀ r : Ref,
      (applyDefaults u repoURI r).File = r.File ∧
      (applyDefaults u repoURI r).Start = r.Start ∧
      (applyDefaults u repoURI r).End = r.End ∧
      (applyDefaults u repoURI r).DefPath = r.DefPath ∧
      (r.DefRepo ≠ "" → (applyDefaults u repoURI r).DefRepo = r.DefRepo) ∧
      (r.DefUnit ≠ "" → (applyDefaults u repoURI r).DefUnit = r.DefUnit) ∧
      (r.DefUnitType ≠ "" →
        (applyDefaults u repoURI r).DefUnitType = r.DefUnitType) ∧
      (r.DefRepo = "" → (applyDefaults u repoURI r).DefRepo = repoURI) ∧
      (r.DefUnit = "" → (applyDefaults u repoURI r).DefUnit = u.Name) ∧
      (r.DefUnitType = "" →
        (applyDefaults u repoURI r).DefUnitType = u.Typ)) := by
  refine ⟨?_, ?_, ?_⟩
  · intro refs hno
    induction refs with
    | nil => rfl
    | cons r rest ih =>
      have hr := hno r (List.mem_cons_self r rest)
      simp only [refsAfterDescribe, hr, Bool.false_eq_true, if_neg]
      rw [ih (fun x hx => hno x (List.mem_cons_of_mem r hx))]
      simp
  · intro l1 l2 r hno hr
    induction l1 with
    | nil => simp [refsAfterDescribe, hr]
    | cons x xs ih =>
      have hx := hno x (List.mem_cons_self x xs)
      rw [List.cons_append]
      simp only [refsAfterDescribe]
      rw [if_neg (by simp [hx]),
        ih (fun y hy => hno y (List.mem_cons_of_mem x hy)),
        List.cons_append]
  · intro r
    rw [applyDefaults_fields]
    exact ⟨rfl, rfl, rfl, rfl,
      fun h => by simp [h], fun h => by simp [h], fun h => by simp [h],
      fun h => by simp [h], fun h => by simp [h], fun h => by simp [h]⟩

/-- Witness for C8 (amended): the non-covering refs around the matched
one are untouched and only the matched ref is rewritten. -/
theorem describe_mutates_only_matched_ref_witness :
    refsAfterDescribe uA1 "example.com/r" "a.py" 5 ([rFar] ++ rWide :: [rNarrow]) =
      [rFar] ++ applyDefaults uA1 "example.com/r" rWide :: [rNarrow] :=
  (describe_mutates_only_matched_ref uA1 "example.com/r" "a.py" 5).2.1
    [rFar] [rNarrow] rWide (by decide) (by decide)

end Srclib
